import Mathlib

/-!
Verification of the core subsystems of the `sony-camera-server` repository
against its specification.  The Python sources are shallowly embedded:
bytes are `Nat` (values `< 256` where it matters), byte buffers are
`List Nat`, Python exceptions become an explicit error type, and the
stateful objects (`MJPEGStreamer`, `DeviceCache`, the HTTP facade state)
become explicit state-passing functions.
-/

/-- Python exceptions that the embedded code can raise. -/
inductive PyErr where
  | keyError (msg : String)
  | valueError (msg : String)
  | indexError
  | structError
  | runtimeError (msg : String)
deriving DecidableEq, Repr

/-! ## `sony_streams.py` — the liveview binary stream parser -/

/-- `JPEG_DATA = 0x01` in `sony_streams.py`. -/
def JPEG_DATA : Nat := 0x01

/-- `FRAME_DATA = 0x02` in `sony_streams.py`. -/
def FRAME_DATA : Nat := 0x02

/-- Big-endian 16-bit integer from two bytes (`struct` format `H`). -/
def be16 (b1 b0 : Nat) : Nat := b1 * 256 + b0

/-- Big-endian 32-bit integer from four bytes (`struct` format `I`). -/
def be32 (b3 b2 b1 b0 : Nat) : Nat := ((b3 * 256 + b2) * 256 + b1) * 256 + b0

structure CommonHdr where
  start_byte : Nat
  payload_type : Nat
  sequence_number : Nat
  time_stamp : Nat
deriving DecidableEq, Repr

/-- `common_header(data)`: `struct.unpack('!BBHI', data)` requires exactly
8 bytes (`struct.error` otherwise), then the start byte must be `0xFF`. -/
def common_header (data : List Nat) : Except PyErr CommonHdr :=
  match data with
  | [b0, b1, b2, b3, b4, b5, b6, b7] =>
    if b0 ≠ 255 then
      .error (.runtimeError "wrong QX livestream start byte")
    else
      .ok ⟨b0, b1, be16 b2 b3, be32 b4 b5 b6 b7⟩
  | _ => .error .structError

/-- The payload-type-specific tail of the 128-byte payload header. -/
inductive PayloadExtra where
  | jpeg (reserved_1 flag : Nat)
  | frameinfo (version frame_count frame_size : Nat)
deriving DecidableEq, Repr

structure PayloadHdr where
  start_code : Nat
  jpeg_data_size : Nat
  padding_size : Nat
  extra : PayloadExtra
deriving DecidableEq, Repr

/-- `payload_header_jpeg(data)`: `struct.unpack_from('!IB', data, offset=8)`
(needs at least 13 bytes), and the flag byte must be zero. -/
def payload_header_jpeg (d : List Nat) : Except PyErr PayloadExtra :=
  if d.length < 13 then .error .structError
  else
    let reserved_1 := be32 (d.getD 8 0) (d.getD 9 0) (d.getD 10 0) (d.getD 11 0)
    let flag := d.getD 12 0
    if flag ≠ 0 then .error (.runtimeError "Wrong QX payload header flag")
    else .ok (.jpeg reserved_1 flag)

/-- `payload_header_frameinfo(data)`: `struct.unpack_from('!HHH', data,
offset=8)` (needs at least 14 bytes). -/
def payload_header_frameinfo (d : List Nat) : Except PyErr PayloadExtra :=
  if d.length < 14 then .error .structError
  else
    .ok (.frameinfo (be16 (d.getD 8 0) (d.getD 9 0))
                    (be16 (d.getD 10 0) (d.getD 11 0))
                    (be16 (d.getD 12 0) (d.getD 13 0)))

/-- `payload_header(data, type)`: reads `startCode(4)`, the three
`jpegDataSize` bytes reconstructed as a big-endian 3-byte integer, and
`paddingSize(1)`; rejects a wrong start code and `jpeg_data_size > 100000`;
then dispatches on the payload type. -/
def payload_header (d : List Nat) (type : Nat) : Except PyErr PayloadHdr :=
  if d.length < 8 then .error .structError
  else
    let start_code := be32 (d.getD 0 0) (d.getD 1 0) (d.getD 2 0) (d.getD 3 0)
    if start_code ≠ 607479929 then
      .error (.runtimeError "wrong QX payload header start")
    else
      -- jpeg_data_size = size_0 * 2^0 + size_1 * 2^8 + size_2 * 2^16
      let jpeg_data_size :=
        (d.getD 6 0) * 2 ^ 0 + (d.getD 5 0) * 2 ^ 8 + (d.getD 4 0) * 2 ^ 16
      if jpeg_data_size > 100000 then
        .error (.runtimeError "Possibly wrong image size?")
      else
        let padding_size := d.getD 7 0
        if type = 1 then
          (payload_header_jpeg d).map fun e =>
            ⟨start_code, jpeg_data_size, padding_size, e⟩
        else if type = 2 then
          (payload_header_frameinfo d).map fun e =>
            ⟨start_code, jpeg_data_size, padding_size, e⟩
        else .error (.runtimeError "Unknown payload type")

structure FrameInfo where
  left : Nat
  top : Nat
  right : Nat
  bottom : Nat
  category : Nat
  status : Nat
  additional : Nat
deriving DecidableEq, Repr

/-- `payload_frameinfo(data)`: four big-endian `u16`, then three bytes at
offset 8 (needs at least 11 bytes). -/
def payload_frameinfo (d : List Nat) : Except PyErr FrameInfo :=
  if d.length < 11 then .error .structError
  else
    .ok ⟨be16 (d.getD 0 0) (d.getD 1 0), be16 (d.getD 2 0) (d.getD 3 0),
         be16 (d.getD 4 0) (d.getD 5 0), be16 (d.getD 6 0) (d.getD 7 0),
         d.getD 8 0, d.getD 9 0, d.getD 10 0⟩

/-- The FrameInfo body loop of `_grab_liveview`: read `frame_count` chunks
of `frame_size` bytes each and parse each with `payload_frameinfo`. -/
def readFrameInfos : Nat → Nat → List Nat → Except PyErr (List FrameInfo × List Nat)
  | 0, _, s => .ok ([], s)
  | n + 1, fs, s =>
    match payload_frameinfo (s.take fs) with
    | .error e => .error e
    | .ok fi =>
      match readFrameInfos n fs (s.drop fs) with
      | .error e => .error e
      | .ok (l, r) => .ok (fi :: l, r)

/-- The callbacks fired and the unconsumed stream after one pass of the
`_grab_liveview` loop body. -/
structure GrabOut where
  jpegs : List (List Nat)
  infos : List FrameInfo
  rest : List Nat
deriving DecidableEq, Repr

/-- One pass of the `while` loop in `LiveviewStreamThread._grab_liveview`
over an explicit byte stream (the pacing sleep concerns wall-clock time
only and touches no stream data, so it is not modelled): read 8 header
bytes, 128 payload-header bytes, then the JPEG or FrameInfo body, then
skip the padding.  `session.read(n)` returns at most `n` bytes, hence
`take`/`drop`. -/
def grab_liveview_step (s : List Nat) : Except PyErr GrabOut :=
  let hdr := s.take 8
  let s1 := s.drop 8
  match common_header hdr with
  | .error e => .error e
  | .ok comhdr =>
    let data := s1.take 128
    let s2 := s1.drop 128
    match payload_header data comhdr.payload_type with
    | .error e => .error e
    | .ok payload =>
      if comhdr.payload_type = JPEG_DATA then
        let size := payload.jpeg_data_size
        let img := s2.take size
        let s3 := s2.drop size
        if img.length ≠ size then
          .error (.valueError "Payload length mismatch")
        else
          .ok ⟨[img], [], s3.drop payload.padding_size⟩
      else if comhdr.payload_type = FRAME_DATA then
        match payload.extra with
        | .frameinfo _ frame_count frame_size =>
          match readFrameInfos frame_count frame_size s2 with
          | .error e => .error e
          | .ok (fis, s3) => .ok ⟨[], fis, s3.drop payload.padding_size⟩
        | .jpeg _ _ => .ok ⟨[], [], s2.drop payload.padding_size⟩
      else
        .ok ⟨[], [], s2.drop payload.padding_size⟩

/-! ## `sony_streams.py` — reconnect backoff (`LiveviewStreamThread`) -/

/-- The `BACKOFF` dict of `LiveviewStreamThread`. -/
def BACKOFF : Nat → Option Nat
  | 0 => some 1
  | 1 => some 2
  | 2 => some 4
  | 3 => some 8
  | 4 => some 16
  | _ => none

/-- `MAX_BACKOFF = 16`. -/
def MAX_BACKOFF : Nat := 16

/-- One outcome of an iteration of `LiveviewStreamThread.run`: either a
frame was parsed successfully (ending in `self._cnt = 0`) or a transient
failure triggered `self._backoff()`. -/
inductive LvEvent where
  | success
  | failure
deriving DecidableEq, Repr

/-- `_backoff`: increment the consecutive-failure counter, then sleep
`BACKOFF.get(self._cnt, MAX_BACKOFF)` seconds.  Returns the new counter
and the slept duration. -/
def backoffStep (cnt : Nat) : Nat × Nat :=
  let c := cnt + 1
  (c, (BACKOFF c).getD MAX_BACKOFF)

/-- Run the `LiveviewStreamThread` counter over a trace of outcomes,
collecting the sleep durations in order.  A successful frame resets
`self._cnt` to `0`; a transient failure runs `_backoff`. -/
def runCnt : Nat → List LvEvent → Nat × List Nat
  | c, [] => (c, [])
  | _, .success :: tr => runCnt 0 tr
  | c, .failure :: tr =>
    let (c', slp) := backoffStep c
    let (cf, sleeps) := runCnt c' tr
    (cf, slp :: sleeps)

/-! ## `sony_imgdev.py` — `SonyEndPoint.next_id` -/

/-- `SonyEndPoint.ID_MAX = 0x7FFF_FFFF`. -/
def ID_MAX : Nat := 0x7FFFFFFF

/-- `next_id`: return the current id and advance it to
`self.id % ID_MAX + 1`. -/
def next_id (id : Nat) : Nat × Nat :=
  (id, id % ID_MAX + 1)

/-- The endpoint's id counter after `i` calls to `next_id`, starting
from `k`.  The value returned by the `(i+1)`-st call is `idState k i`. -/
def idState (k : Nat) : Nat → Nat
  | 0 => k
  | i + 1 => (next_id (idState k i)).2

/-! ## `sony_http_server.py` — `MJPEGStreamer` -/

/-- Result of `MJPEGStreamer.get_frame` for the calling thread. -/
inductive GetRes (F : Type) where
  | frame (f : F)
  | emptyBytes
  | blocked
deriving DecidableEq, Repr

/-- The mutable state of a `MJPEGStreamer`: per-slot FIFO queues, the
per-slot `enabled` flags, the thread-id → slot-index dict and the active
count.  Slot indices are `Int` because `_next_idx` can return `-1`. -/
structure MState (F : Type) where
  fps : Nat
  act_threads : Int
  max_threads : Nat
  thread_map : List (Nat × Int)
  queues : List (List F)
  enabled : List Bool
deriving DecidableEq, Repr

/-- Python-dict lookup in the `thread_map`. -/
def lookupTid (m : List (Nat × Int)) (tid : Nat) : Option Int :=
  match m with
  | [] => none
  | (t, i) :: rest => if t = tid then some i else lookupTid rest tid

/-- Python-dict assignment `thread_map[tid] = idx`. -/
def insertTid (m : List (Nat × Int)) (tid : Nat) (idx : Int) :
    List (Nat × Int) :=
  match m with
  | [] => [(tid, idx)]
  | (t, i) :: rest =>
    if t = tid then (t, idx) :: rest else (t, i) :: insertTid rest tid idx

/-- `MJPEGStreamer.__init__`. -/
def mjpegInit (F : Type) (max_threads fps : Nat) : MState F :=
  ⟨fps, 0, max_threads, [], List.replicate max_threads [],
   List.replicate max_threads false⟩

/-- The `enumerate` loop of `_next_idx`, carrying the running index. -/
def next_idx_aux : List Bool → Nat → Int
  | [], _ => -1
  | b :: bs, i => if !b then (i : Int) else next_idx_aux bs (i + 1)

/-- `MJPEGStreamer._next_idx`: index of the first inactive slot, `-1` if
every slot is active. -/
def next_idx (s : MState F) : Int :=
  next_idx_aux s.enabled 0

/-- `MJPEGStreamer.activate`. -/
def activate (s : MState F) (tid : Nat) : MState F × Bool :=
  let idx := next_idx s
  if idx < 0 then (s, false)
  else
    ({ s with
        thread_map := insertTid s.thread_map tid idx,
        act_threads := s.act_threads + 1,
        enabled := s.enabled.set idx.toNat true }, true)

/-- `MJPEGStreamer.get_frame`: `self.thread_map[tid]` raises `KeyError`
for an unknown thread id; a negative index returns `bytes()`; otherwise
dequeue from the slot's FIFO queue (`Queue.get` blocks when empty). -/
def get_frame (s : MState F) (tid : Nat) : Except PyErr (GetRes F × MState F) :=
  match lookupTid s.thread_map tid with
  | none => .error (.keyError "tid")
  | some idx =>
    if idx < 0 then .ok (.emptyBytes, s)
    else
      match s.queues.getD idx.toNat [] with
      | [] => .ok (.blocked, s)
      | f :: rest =>
        .ok (.frame f, { s with queues := s.queues.set idx.toNat rest })

/-- `MJPEGStreamer.deactivate`: `KeyError` for an unknown thread id; a
negative index returns silently; otherwise disable the slot, clear its
queue, and decrement the active count. -/
def deactivate (s : MState F) (tid : Nat) : Except PyErr (MState F) :=
  match lookupTid s.thread_map tid with
  | none => .error (.keyError "tid")
  | some idx =>
    if idx < 0 then .ok s
    else
      .ok { s with
              enabled := s.enabled.set idx.toNat false,
              queues := s.queues.set idx.toNat [],
              act_threads := s.act_threads - 1 }

/-- `MJPEGStreamer.add_frame`: `zip(self.enabled, self.queues)` and
`put` the frame into every active slot's queue. -/
def add_frame (s : MState F) (f : F) : MState F :=
  { s with
      queues :=
        List.zipWith (fun active lifo => if active then lifo ++ [f] else lifo)
          s.enabled s.queues }

/-- One client/producer event against the streamer. -/
inductive MEvent (F : Type) where
  | act (tid : Nat)
  | add (f : F)
  | get (tid : Nat)
  | deact (tid : Nat)
deriving DecidableEq, Repr

/-- The streamer state together with two ghost fields used to state the
fan-out invariant: per slot, the frames added while the slot was active
since it was last (re)activated, and the frames its client has dequeued
since then. -/
structure GhostState (F : Type) where
  real : MState F
  added : List (List F)
  delivered : List (List F)
deriving DecidableEq, Repr

/-- One event step.  The real component steps exactly as the Python
methods do (an exception or a blocked `get` leaves the state unchanged);
the ghost fields record added/delivered frames per slot and reset on
(re)activation and deactivation. -/
def gstep (g : GhostState F) (e : MEvent F) : GhostState F :=
  match e with
  | .act tid =>
    let idx := next_idx g.real
    let res := activate g.real tid
    if res.2 then
      { real := res.1,
        added := g.added.set idx.toNat [],
        delivered := g.delivered.set idx.toNat [] }
    else { g with real := res.1 }
  | .add f =>
    { real := add_frame g.real f,
      added :=
        List.zipWith (fun active l => if active then l ++ [f] else l)
          g.real.enabled g.added,
      delivered := g.delivered }
  | .get tid =>
    match get_frame g.real tid with
    | .ok (.frame f, s') =>
      match lookupTid g.real.thread_map tid with
      | some idx =>
        { real := s',
          added := g.added,
          delivered :=
            g.delivered.set idx.toNat (g.delivered.getD idx.toNat [] ++ [f]) }
      | none => g
    | _ => g
  | .deact tid =>
    match deactivate g.real tid with
    | .ok s' =>
      match lookupTid g.real.thread_map tid with
      | some idx =>
        if idx < 0 then { g with real := s' }
        else
          { real := s',
            added := g.added.set idx.toNat [],
            delivered := g.delivered.set idx.toNat [] }
      | none => g
    | .error _ => g

/-- Run a trace of events. -/
def grun (g : GhostState F) : List (MEvent F) → GhostState F
  | [] => g
  | e :: es => grun (gstep g e) es

/-- The initial ghost state over a freshly constructed streamer. -/
def ginit (F : Type) (max_threads fps : Nat) : GhostState F :=
  ⟨mjpegInit F max_threads fps, List.replicate max_threads [],
   List.replicate max_threads []⟩

/-- The streamer state reached from a fresh streamer by a trace. -/
def mjpegRun (F : Type) (max_threads fps : Nat) (events : List (MEvent F)) :
    GhostState F :=
  grun (ginit F max_threads fps) events

/-! ## `ssdp.py` — SSDP response parsing and `query` -/

/-- Bytes of a string (ASCII code points). -/
def strBytes (s : String) : List Nat := s.toList.map Char.toNat

/-- `b'\r\n'`. -/
def CRLF : List Nat := [13, 10]

/-- `b': '`. -/
def COLSP : List Nat := [58, 32]

/-- First occurrence of `sep` in `l` (Python `bytes.find`), as the bytes
before it and the bytes after it. -/
def splitOnceAt (sep : List Nat) : List Nat → Option (List Nat × List Nat)
  | [] => if sep.isPrefixOf ([] : List Nat) then some ([], []) else none
  | x :: xs =>
    if sep.isPrefixOf (x :: xs) then some ([], (x :: xs).drop sep.length)
    else (splitOnceAt sep xs).map fun p => (x :: p.1, p.2)

/-- Python `bytes.split(sep)` for a non-empty separator; `fuel` bounds the
recursion and `l.length` is always enough. -/
def splitAll (sep : List Nat) : Nat → List Nat → List (List Nat)
  | 0, l => [l]
  | fuel + 1, l =>
    match splitOnceAt sep l with
    | none => [l]
    | some (pre, post) => pre :: splitAll sep fuel post

/-- `data.split(b'\r\n')`. -/
def bytesSplit (sep l : List Nat) : List (List Nat) :=
  splitAll sep l.length l

/-- ASCII lower-casing of one byte (`bytes.lower`). -/
def byteLower (b : Nat) : Nat :=
  if 65 ≤ b ∧ b ≤ 90 then b + 32 else b

/-- Python dict assignment: replace in place or append. -/
def dictSet {K V : Type} [DecidableEq K] (m : List (K × V)) (k : K) (v : V) :
    List (K × V) :=
  match m with
  | [] => [(k, v)]
  | (k', v') :: rest =>
    if k' = k then (k', v) :: rest else (k', v') :: dictSet rest k v

/-- The header loop of `parse_ssdp_response` over `lines[1:]`: skip empty
lines; `key, val = line.split(b': ', 1)` raises `ValueError` when the
separator is absent (one value cannot unpack into two); keys are
lower-cased. -/
def parse_ssdp_lines :
    List (List Nat) → List (List Nat × List Nat) →
    Except PyErr (List (List Nat × List Nat))
  | [], headers => .ok headers
  | line :: ls, headers =>
    if line = [] then parse_ssdp_lines ls headers
    else
      match splitOnceAt COLSP line with
      | none => .error (.valueError "not enough values to unpack")
      | some (key, val) =>
        parse_ssdp_lines ls (dictSet headers (key.map byteLower) val)

/-- `parse_ssdp_response(data)`.  The guard
`if not lines and lines[0] == b'HTTP/1.1 200 OK'` is `False` whenever
`lines` is non-empty (and `split` always returns at least one chunk), so
the `raise KeyError` is dead; if `lines` were empty, `lines[0]` itself
would raise `IndexError`. -/
def parse_ssdp_response (data : List Nat) :
    Except PyErr (List (List Nat × List Nat)) :=
  match bytesSplit CRLF data with
  | [] => .error .indexError
  | _ :: rest => parse_ssdp_lines rest []

/-- Lexicographic comparison of byte strings (Python `bytes < bytes`). -/
def bytesLt : List Nat → List Nat → Bool
  | [], [] => false
  | [], _ :: _ => true
  | _ :: _, [] => false
  | x :: xs, y :: ys =>
    if x < y then true else if y < x then false else bytesLt xs ys

/-- Tuple comparison `(name, value) < (name, value)`. -/
def pairLt (a b : List Nat × List Nat) : Bool :=
  if bytesLt a.1 b.1 then true
  else if bytesLt b.1 a.1 then false
  else bytesLt a.2 b.2

def insertSorted (x : List Nat × List Nat) :
    List (List Nat × List Nat) → List (List Nat × List Nat)
  | [] => [x]
  | y :: ys => if pairLt y x then y :: insertSorted x ys else x :: y :: ys

/-- `tuple(sorted(srv.items()))`: the dedup key of a discovery record. -/
def sortPairs (l : List (List Nat × List Nat)) : List (List Nat × List Nat) :=
  l.foldr insertSorted []

/-- What one socket of `query` observes: a timeout, an OS error, or a
received datagram. -/
inductive SockRecv where
  | timeout
  | oserror
  | recv (data : List Nat)
deriving DecidableEq, Repr

/-- The per-socket loop of `SSDPDiscoverer.query`, with the `services`
dict accumulating records keyed by sorted header tuple.  `socket.timeout`,
`OSError` and `KeyError` are caught and skip the socket; any other
exception (in particular the `ValueError` from a malformed header line)
escapes. -/
def queryGo (socks : List SockRecv)
    (services : List (List (List Nat × List Nat) × List (List Nat × List Nat))) :
    Except PyErr (List (List (List Nat × List Nat))) :=
  match socks with
  | [] => .ok (services.map Prod.snd)
  | s :: ss =>
    match s with
    | .timeout => queryGo ss services
    | .oserror => queryGo ss services
    | .recv data =>
      match parse_ssdp_response data with
      | .ok srv => queryGo ss (dictSet services (sortPairs srv) srv)
      | .error (.keyError _) => queryGo ss services
      | .error e => .error e

/-- `SSDPDiscoverer.query`, as a function of what each socket received. -/
def query (socks : List SockRecv) :
    Except PyErr (List (List (List Nat × List Nat))) :=
  queryGo socks []

/-! ## `device_cache.py` — `DeviceCache` -/

/-- Python dict lookup. -/
def dictGet {K V : Type} [DecidableEq K] (m : List (K × V)) (k : K) :
    Option V :=
  match m with
  | [] => none
  | (k', v) :: rest => if k' = k then some v else dictGet rest k

/-- Code-point comparison of character lists (Python string `<`). -/
def charListLt : List Char → List Char → Bool
  | [], [] => false
  | [], _ :: _ => true
  | _ :: _, [] => false
  | c :: cs, d :: ds =>
    if c.toNat < d.toNat then true
    else if d.toNat < c.toNat then false
    else charListLt cs ds

def strLt (a b : String) : Bool := charListLt a.toList b.toList

/-- Python tuple comparison on `(name, value)` pairs of strings. -/
def strPairLt (a b : String × String) : Bool :=
  if strLt a.1 b.1 then true
  else if strLt b.1 a.1 then false
  else strLt a.2 b.2

def insertRecSorted (x : String × String) :
    List (String × String) → List (String × String)
  | [] => [x]
  | y :: ys => if strPairLt y x then y :: insertRecSorted x ys else x :: y :: ys

/-- `tuple(sorted(ssdp_dev.items()))`: the cache key of a record. -/
def sortRecord (r : List (String × String)) : List (String × String) :=
  r.foldr insertRecSorted []

/-- Python `needle in haystack` on strings. -/
def containsSub (needle : List Char) : List Char → Bool
  | [] => needle.isPrefixOf ([] : List Char)
  | c :: cs => needle.isPrefixOf (c :: cs) || containsSub needle cs

/-- The header value `r.get(k, ...)`. -/
def getHdr (r : List (String × String)) (k : String) : Option String :=
  dictGet r k

/-- The cache state: the on-disk dict keyed by sorted header tuple, with
device identities as allocation tokens (`fresh` is the next token: each
`SonyImagingDevice(...)` construction — an XML fetch — allocates one). -/
structure CacheState where
  cache : List (List (String × String) × Nat)
  fresh : Nat
deriving DecidableEq, Repr

/-- `DeviceCache.add`: key by sorted items; on a miss construct the
device (fetching the XML — reported by the returned flag) and store it;
on a hit return the cached proxy unchanged. -/
def cacheAdd (st : CacheState) (r : List (String × String)) :
    CacheState × Nat × Bool :=
  let key := sortRecord r
  match dictGet st.cache key with
  | some d => (st, d, false)
  | none => (⟨st.cache ++ [(key, st.fresh)], st.fresh + 1⟩, st.fresh, true)

/-- The loop of `DeviceCache.scan_devices`: skip records whose `server`
header does not contain `SonyImagingDevice` or which lack `location`;
`devices[rsp["location"]] = self.add(rsp)`; count the XML fetches. -/
def scanGo : List (List (String × String)) → CacheState →
    List (String × Nat) → Nat → CacheState × List (String × Nat) × Nat
  | [], st, devices, fetches => (st, devices, fetches)
  | r :: rs, st, devices, fetches =>
    if containsSub "SonyImagingDevice".toList
        (((getHdr r "server").getD "").toList) then
      match getHdr r "location" with
      | none => scanGo rs st devices fetches
      | some loc =>
        let res := cacheAdd st r
        scanGo rs res.1 (dictSet devices loc res.2.1)
          (fetches + (if res.2.2 then 1 else 0))
    else scanGo rs st devices fetches

/-- `DeviceCache.scan_devices`: returns `list(devices.values())` along
with the new cache state and the number of XML fetches performed. -/
def scan_devices (st : CacheState) (replies : List (List (String × String))) :
    CacheState × List Nat × Nat :=
  let res := scanGo replies st [] 0
  (res.1, res.2.1.map Prod.snd, res.2.2)

/-! ## `sony_http_server.py` — `SonyCameraServer._change_device` -/

structure SrvDevice where
  devId : Nat
  device_name : String
deriving DecidableEq, Repr

/-- Externally visible actions of `_change_device`. -/
inductive SrvEffect where
  | logChange
  | stopLiveview
  | startLiveview (url : String)
deriving DecidableEq, Repr

structure ServerState where
  devices : List SrvDevice
  active_device : Option SrvDevice
  liveview : Option String
  status : Option Nat
deriving DecidableEq, Repr

/-- `SonyCameraServer._update_status`, with the `camera.getEvent` result
supplied as an oracle argument. -/
def update_status (s : ServerState) (evResult : Option Nat) :
    ServerState × Bool :=
  match s.active_device with
  | none => (s, false)
  | some _ =>
    match evResult with
    | some st => ({ s with status := some st }, true)
    | none => (s, false)

/-- `SonyCameraServer._stop_liveview`: exits and joins the thread when
both an active device and a liveview handle exist. -/
def stop_liveview (s : ServerState) : ServerState × List SrvEffect :=
  match s.active_device, s.liveview with
  | some _, some _ => (s, [.stopLiveview])
  | _, _ => (s, [])

/-- `SonyCameraServer._start_liveview`, with the `startLiveview` RPC
result supplied as an oracle argument: on a `result`, stop the old
thread and start a new one against the returned URL. -/
def start_liveview (s : ServerState) (lvResult : Option String) :
    ServerState × List SrvEffect :=
  match s.active_device with
  | none => (s, [])
  | some _ =>
    match lvResult with
    | some url =>
      let res := stop_liveview s
      ({ res.1 with liveview := some url }, res.2 ++ [.startLiveview url])
    | none => (s, [])

/-- The `for d in self.devices` loop of `_change_device`: the last
device whose name equals `dev` wins. -/
def findDevice (devices : List SrvDevice) (dev : String) : Option SrvDevice :=
  devices.foldl (fun acc d => if dev ≠ d.device_name then acc else some d) none

/-- `SonyCameraServer._change_device`: locate a device by exact name and
switch only when its name differs from the active device's name. -/
def change_device (s : ServerState) (dev : String) (evResult : Option Nat)
    (lvResult : Option String) : ServerState × List SrvEffect :=
  let new_dev := findDevice s.devices dev
  let cur_dev_name :=
    match s.active_device with
    | some a => a.device_name
    | none => ""
  match new_dev with
  | some nd =>
    if nd.device_name ≠ cur_dev_name then
      let s1 := { s with active_device := some nd }
      let s2 := (update_status s1 evResult).1
      let res := start_liveview s2 lvResult
      (res.1, .logChange :: res.2)
    else (s, [])
  | none => (s, [])

/-! ## `sony_http_server.py` — `SonyRequestHandler._forward_device_file` -/

/-- The fields of a media-walk entry that `_forward_device_file` and
`_mime_type` read: `f["uri"]`, `f["content"]["original"][0]["url"]`,
`f["contentKind"]`, `f["content"]["original"][0]["stillObject"]`. -/
structure MediaFile where
  uri : String
  url : String
  contentKind : String
  stillObject : String
deriving DecidableEq, Repr

/-- Python `str.startswith`. -/
def strStartsWith (s pre : String) : Bool :=
  pre.toList.isPrefixOf s.toList

/-- `SonyRequestHandler._mime_type` (implicitly returns `None` when no
branch matches). -/
def mime_type (f : MediaFile) : Option String :=
  if f.contentKind = "still" then
    if f.stillObject = "jpeg" then some "image/jpeg"
    else if f.stillObject = "raw" then some "image/x-sony-arw"
    else none
  else if strStartsWith f.contentKind "movie" then some "video/mp4"
  else none

/-- What the handler writes to the HTTP response. -/
inductive HttpEvent where
  | response (code : Nat)
  | header (n : String) (value : Option String)
  | endHeaders
  | body (data : List Nat)
deriving DecidableEq, Repr

/-- `os.path.basename`: the final path segment. -/
def osBasename (p : String) : String :=
  String.mk ((p.toList.reverse.takeWhile (fun c => c ≠ '/')).reverse)

/-- The `do_GET` dispatch test for `/{image,video,audio}:content/…`. -/
def isContentPath (p : String) : Bool :=
  strStartsWith p "/image:content" || strStartsWith p "/video:content" ||
    strStartsWith p "/audio:content"

/-- The walk loop of `_forward_device_file`: on a matching `uri`, fetch
the first `original` URL (a failed fetch replies 503 and returns);
a successful fetch replies 200 with headers and body — and, the loop
having no `return` there, keeps scanning.  Falling off the loop sends
nothing. -/
def forward_device_file_go (basename : String)
    (fetch : String → Option (List Nat)) : List MediaFile → List HttpEvent
  | [] => []
  | f :: fs =>
    if f.uri = basename then
      match fetch f.url with
      | none => [.response 503]
      | some data =>
        [.response 200, .header "Content-type" (mime_type f), .endHeaders,
          .body data] ++ forward_device_file_go basename fetch fs
    else forward_device_file_go basename fetch fs

/-- `SonyRequestHandler._forward_device_file`: 503 when no device is
active, else the walk loop against the last path segment. -/
def forward_device_file (active : Bool) (walk : List MediaFile)
    (path : String) (fetch : String → Option (List Nat)) : List HttpEvent :=
  if !active then [.response 503]
  else forward_device_file_go (osBasename path) fetch walk

/-! ### List helpers for the streamer proofs -/

lemma getD_set_self' (l : List α) {i : Nat} (h : i < l.length) (v d : α) :
    (l.set i v).getD i d = v := by
  simp [List.getD_eq_getElem?_getD, List.getElem?_set_self (by simpa using h)]

lemma getD_set_ne' (l : List α) {i j : Nat} (h : i ≠ j) (v d : α) :
    (l.set i v).getD j d = l.getD j d := by
  simp [List.getD_eq_getElem?_getD, List.getElem?_set_ne h]

lemma getD_zipWith' {f : α → β → γ} (l1 : List α) (l2 : List β) (i : Nat)
    (h1 : i < l1.length) (h2 : i < l2.length) (d1 : α) (d2 : β) (d3 : γ) :
    (List.zipWith f l1 l2).getD i d3 = f (l1.getD i d1) (l2.getD i d2) := by
  simp [List.getD_eq_getElem?_getD, List.getElem?_zipWith,
    List.getElem?_eq_getElem h1, List.getElem?_eq_getElem h2]

lemma getD_replicate' (n i : Nat) (h : i < n) (a d : α) :
    (List.replicate n a).getD i d = a := by
  simp [List.getD_eq_getElem?_getD, List.getElem?_replicate, h]

/-! ### `thread_map` dictionary lemmas -/

lemma lookupTid_some_mem {m : List (Nat × Int)} {t : Nat} {i : Int}
    (h : lookupTid m t = some i) : (t, i) ∈ m := by
  induction m with
  | nil => simp [lookupTid] at h
  | cons q rest ih =>
    obtain ⟨t', i'⟩ := q
    simp only [lookupTid] at h
    by_cases ht : t' = t
    · rw [if_pos ht] at h
      cases h
      exact ht ▸ List.mem_cons_self _ _
    · rw [if_neg ht] at h
      exact List.mem_cons_of_mem _ (ih h)

lemma mem_insertTid {m : List (Nat × Int)} {t : Nat} {i : Int} {p : Nat × Int}
    (h : p ∈ insertTid m t i) : p = (t, i) ∨ p ∈ m := by
  induction m with
  | nil => simpa [insertTid] using h
  | cons q rest ih =>
    obtain ⟨t', i'⟩ := q
    simp only [insertTid] at h
    by_cases ht : t' = t
    · rw [if_pos ht] at h
      rcases List.mem_cons.1 h with h1 | h1
      · exact Or.inl (by rw [h1, ht])
      · exact Or.inr (List.mem_cons_of_mem _ h1)
    · rw [if_neg ht] at h
      rcases List.mem_cons.1 h with h1 | h1
      · exact Or.inr (h1 ▸ List.mem_cons_self _ _)
      · rcases ih h1 with h2 | h2
        · exact Or.inl h2
        · exact Or.inr (List.mem_cons_of_mem _ h2)

lemma lookupTid_insertTid_self (m : List (Nat × Int)) (t : Nat) (i : Int) :
    lookupTid (insertTid m t i) t = some i := by
  induction m with
  | nil => simp [insertTid, lookupTid]
  | cons q rest ih =>
    obtain ⟨t', i'⟩ := q
    simp only [insertTid]
    by_cases ht : t' = t
    · rw [if_pos ht]
      simp [lookupTid, ht]
    · rw [if_neg ht]
      simp [lookupTid, ht, ih]

/-! ### `_next_idx` characterization -/

lemma next_idx_aux_eq_neg_iff (l : List Bool) (k : Nat) :
    next_idx_aux l k = -1 ↔ ∀ b ∈ l, b = true := by
  induction l generalizing k with
  | nil => simp [next_idx_aux]
  | cons b bs ih =>
    cases b with
    | false =>
      simp only [next_idx_aux, Bool.not_false, if_pos]
      constructor
      · intro h
        exact absurd h (by omega)
      · intro h
        exact absurd (h false (List.mem_cons_self _ _)) (by simp)
    | true =>
      simp only [next_idx_aux, Bool.not_true, Bool.false_eq_true, if_neg,
        ite_false]
      rw [ih (k + 1)]
      constructor
      · intro h b hb
        rcases List.mem_cons.1 hb with h1 | h1
        · rw [h1]
        · exact h b h1
      · intro h b hb
        exact h b (List.mem_cons_of_mem _ hb)

lemma next_idx_aux_cases (l : List Bool) (k : Nat) :
    next_idx_aux l k = -1 ∨
    ∃ i : Nat, next_idx_aux l k = ((k + i : Nat) : Int) ∧ i < l.length ∧
      l.getD i false = false ∧ ∀ j < i, l.getD j false = true := by
  induction l generalizing k with
  | nil => exact Or.inl rfl
  | cons b bs ih =>
    cases b with
    | false =>
      refine Or.inr ⟨0, ?_, by simp, by simp, ?_⟩
      · simp [next_idx_aux]
      · intro j hj
        exact absurd hj (Nat.not_lt_zero j)
    | true =>
      rcases ih (k + 1) with h | ⟨i, h1, h2, h3, h4⟩
      · exact Or.inl (by simpa [next_idx_aux] using h)
      · refine Or.inr ⟨i + 1, ?_, by simp; omega, by simpa using h3, ?_⟩
        · simp only [next_idx_aux, Bool.not_true, Bool.false_eq_true, if_neg,
            ite_false]
          rw [h1]
          congr 1
          omega
        · intro j hj
          cases j with
          | zero => simp
          | succ j' =>
            simpa using h4 j' (by omega)

/-! ### The fan-out invariant -/

/-- Invariant tying the real streamer state and the ghost per-slot
added/delivered histories: the lists have one entry per slot, every
bound slot index is in range, the frames a slot's client has dequeued
followed by the frames still queued are exactly the frames added while
the slot was active (so each is delivered at most once and in producer
order, and the rest are dropped at deactivation), and an inactive slot's
queue is empty. -/
structure MInv (F : Type) (n : Nat) (g : GhostState F) : Prop where
  hen : g.real.enabled.length = n
  hq : g.real.queues.length = n
  ha : g.added.length = n
  hd : g.delivered.length = n
  hmap : ∀ p ∈ g.real.thread_map, 0 ≤ p.2 ∧ p.2 < (n : Int)
  hfan : ∀ i, i < n →
    g.delivered.getD i [] ++ g.real.queues.getD i [] = g.added.getD i []
  hinact : ∀ i, i < n →
    g.real.enabled.getD i false = false → g.real.queues.getD i [] = []

lemma inv_init (F : Type) (n fps : Nat) : MInv F n (ginit F n fps) := by
  refine ⟨by simp [ginit, mjpegInit], by simp [ginit, mjpegInit],
    by simp [ginit], by simp [ginit], ?_, ?_, ?_⟩
  · intro p hp
    simp [ginit, mjpegInit] at hp
  · intro i hi
    simp [ginit, mjpegInit, getD_replicate' n i hi]
  · intro i hi _
    simp [ginit, mjpegInit, getD_replicate' n i hi]

lemma inv_act {F : Type} {n : Nat} {g : GhostState F} (hI : MInv F n g)
    (tid : Nat) : MInv F n (gstep g (.act tid)) := by
  rcases next_idx_aux_cases g.real.enabled 0 with hneg | ⟨i, h1, h2, h3, h4⟩
  · -- no free slot: activate returns (s, false), nothing changes
    have hact : activate g.real tid = (g.real, false) := by
      simp only [activate, next_idx]
      rw [hneg]
      simp
    simp only [gstep, hact]
    exact hI
  · -- lowest free slot i: activate succeeds and marks it
    have hnn : ¬ (next_idx g.real < 0) := by
      simp only [next_idx]
      rw [h1]
      omega
    have htn : (next_idx g.real).toNat = i := by
      simp only [next_idx]
      rw [h1]
      simp
    have hact : activate g.real tid =
        ({ g.real with
            thread_map := insertTid g.real.thread_map tid (next_idx g.real),
            act_threads := g.real.act_threads + 1,
            enabled := g.real.enabled.set (next_idx g.real).toNat true },
         true) := by
      simp only [activate]
      rw [if_neg hnn]
    have hin : i < n := hI.hen ▸ h2
    simp only [gstep, hact, if_pos, htn]
    refine ⟨by simpa using hI.hen, hI.hq, by simpa using hI.ha,
      by simpa using hI.hd, ?_, ?_, ?_⟩
    · intro p hp
      rcases mem_insertTid hp with h5 | h5
      · subst h5
        simp only [next_idx]
        rw [h1]
        constructor
        · omega
        · simp
          omega
      · exact hI.hmap p h5
    · intro j hj
      by_cases hji : j = i
      · subst hji
        rw [getD_set_self' _ (hI.hd ▸ hj), getD_set_self' _ (hI.ha ▸ hj)]
        simpa using hI.hinact j hj h3
      · rw [getD_set_ne' _ (Ne.symm hji), getD_set_ne' _ (Ne.symm hji)]
        exact hI.hfan j hj
    · intro j hj hcond
      by_cases hji : j = i
      · subst hji
        rw [getD_set_self' _ (hI.hen ▸ hj)] at hcond
        exact absurd hcond (by simp)
      · rw [getD_set_ne' _ (Ne.symm hji)] at hcond
        exact hI.hinact j hj hcond

lemma inv_add {F : Type} {n : Nat} {g : GhostState F} (hI : MInv F n g)
    (f : F) : MInv F n (gstep g (.add f)) := by
  simp only [gstep, add_frame]
  refine ⟨hI.hen, by simp [hI.hen, hI.hq], by simp [hI.hen, hI.ha], hI.hd,
    hI.hmap, ?_, ?_⟩
  · intro j hj
    rw [getD_zipWith' g.real.enabled g.real.queues j (hI.hen ▸ hj)
      (hI.hq ▸ hj) false [] []]
    rw [getD_zipWith' g.real.enabled g.added j (hI.hen ▸ hj)
      (hI.ha ▸ hj) false [] []]
    by_cases hb : g.real.enabled.getD j false
    · rw [if_pos hb, if_pos hb, ← List.append_assoc, hI.hfan j hj]
    · rw [if_neg hb, if_neg hb]
      exact hI.hfan j hj
  · intro j hj hcond
    rw [getD_zipWith' g.real.enabled g.real.queues j (hI.hen ▸ hj)
      (hI.hq ▸ hj) false [] []]
    rw [hcond, if_neg (by simp)]
    exact hI.hinact j hj hcond

lemma inv_get {F : Type} {n : Nat} {g : GhostState F} (hI : MInv F n g)
    (tid : Nat) : MInv F n (gstep g (.get tid)) := by
  cases hlk : lookupTid g.real.thread_map tid with
  | none =>
    have hgf : get_frame g.real tid = .error (.keyError "tid") := by
      simp only [get_frame, hlk]
    simp only [gstep, hgf]
    exact hI
  | some idx =>
    have hbound := hI.hmap _ (lookupTid_some_mem hlk)
    have h0 : (0 : Int) ≤ idx := hbound.1
    have hneg : ¬ idx < 0 := by omega
    cases hqv : g.real.queues.getD idx.toNat [] with
    | nil =>
      have hgf : get_frame g.real tid = .ok (.blocked, g.real) := by
        simp only [get_frame, hlk, hqv]
        rw [if_neg hneg]
      simp only [gstep, hgf]
      exact hI
    | cons f rest =>
      have hgf : get_frame g.real tid =
          .ok (.frame f,
            { g.real with queues := g.real.queues.set idx.toNat rest }) := by
        simp only [get_frame, hlk, hqv]
        rw [if_neg hneg]
      simp only [gstep, hgf, hlk]
      have hit : idx.toNat < n := by
        have := hbound.2
        omega
      refine ⟨hI.hen, by simpa using hI.hq, hI.ha, by simpa using hI.hd,
        hI.hmap, ?_, ?_⟩
      · intro j hj
        by_cases hji : j = idx.toNat
        · subst hji
          rw [getD_set_self' _ (hI.hd ▸ hj), getD_set_self' _ (hI.hq ▸ hj),
            List.append_assoc, List.singleton_append, ← hqv]
          exact hI.hfan idx.toNat hj
        · rw [getD_set_ne' _ (Ne.symm hji), getD_set_ne' _ (Ne.symm hji)]
          exact hI.hfan j hj
      · intro j hj hcond
        by_cases hji : j = idx.toNat
        · subst hji
          have h5 := hI.hinact idx.toNat hj hcond
          rw [h5] at hqv
          exact absurd hqv (by simp)
        · rw [getD_set_ne' _ (Ne.symm hji)]
          exact hI.hinact j hj hcond

lemma inv_deact {F : Type} {n : Nat} {g : GhostState F} (hI : MInv F n g)
    (tid : Nat) : MInv F n (gstep g (.deact tid)) := by
  cases hlk : lookupTid g.real.thread_map tid with
  | none =>
    have hdf : deactivate g.real tid = .error (.keyError "tid") := by
      simp only [deactivate, hlk]
    simp only [gstep, hdf]
    exact hI
  | some idx =>
    have hbound := hI.hmap _ (lookupTid_some_mem hlk)
    have h0 : (0 : Int) ≤ idx := hbound.1
    have hneg : ¬ idx < 0 := by omega
    have hdf : deactivate g.real tid =
        .ok { g.real with
                enabled := g.real.enabled.set idx.toNat false,
                queues := g.real.queues.set idx.toNat [],
                act_threads := g.real.act_threads - 1 } := by
      simp only [deactivate, hlk]
      rw [if_neg hneg]
    simp only [gstep, hdf, hlk]
    rw [if_neg hneg]
    have hit : idx.toNat < n := by
      have := hbound.2
      omega
    refine ⟨by simpa using hI.hen, by simpa using hI.hq,
      by simpa using hI.ha, by simpa using hI.hd, hI.hmap, ?_, ?_⟩
    · intro j hj
      by_cases hji : j = idx.toNat
      · subst hji
        rw [getD_set_self' _ (hI.hd ▸ hj), getD_set_self' _ (hI.hq ▸ hj),
          getD_set_self' _ (hI.ha ▸ hj)]
        rfl
      · rw [getD_set_ne' _ (Ne.symm hji), getD_set_ne' _ (Ne.symm hji),
          getD_set_ne' _ (Ne.symm hji)]
        exact hI.hfan j hj
    · intro j hj hcond
      by_cases hji : j = idx.toNat
      · subst hji
        rw [getD_set_self' _ (hI.hq ▸ hj)]
      · rw [getD_set_ne' _ (Ne.symm hji)] at hcond
        rw [getD_set_ne' _ (Ne.symm hji)]
        exact hI.hinact j hj hcond

lemma inv_gstep {F : Type} {n : Nat} {g : GhostState F} (hI : MInv F n g)
    (e : MEvent F) : MInv F n (gstep g e) := by
  cases e with
  | act tid => exact inv_act hI tid
  | add f => exact inv_add hI f
  | get tid => exact inv_get hI tid
  | deact tid => exact inv_deact hI tid

lemma inv_grun {F : Type} {n : Nat} (es : List (MEvent F)) :
    ∀ {g : GhostState F}, MInv F n g → MInv F n (grun g es) := by
  induction es with
  | nil => exact fun h => h
  | cons e es ih => exact fun h => ih (inv_gstep h e)

lemma inv_mjpegRun (F : Type) (n fps : Nat) (events : List (MEvent F)) :
    MInv F n (mjpegRun F n fps events) :=
  inv_grun events (inv_init F n fps)

/-! # Theorems -/

section LiveviewParse

/-- Evaluation of `payload_header` on a well-formed 128-byte JPEG payload
header whose size bytes are `s2 s1 s0` and whose flag byte is zero. -/
lemma payload_header_jpeg_eval
    (s2 s1 s0 p r0 r1 r2 r3 : Nat) (tail : List Nat)
    (htail : tail.length = 115)
    (hL : s0 * 2 ^ 0 + s1 * 2 ^ 8 + s2 * 2 ^ 16 ≤ 100000) :
    payload_header
      ([36, 53, 104, 121, s2, s1, s0, p, r0, r1, r2, r3, 0] ++ tail) 1 =
      .ok ⟨607479929, s0 * 2 ^ 0 + s1 * 2 ^ 8 + s2 * 2 ^ 16, p,
           .jpeg (be32 r0 r1 r2 r3) 0⟩ := by
  set B : List Nat := [36, 53, 104, 121, s2, s1, s0, p, r0, r1, r2, r3, 0] ++ tail with hBdef
  have hlen : B.length = 128 := by simp [hBdef, htail]
  have h0 : B.getD 0 0 = 36 := rfl
  have h1 : B.getD 1 0 = 53 := rfl
  have h2 : B.getD 2 0 = 104 := rfl
  have h3 : B.getD 3 0 = 121 := rfl
  have h4 : B.getD 4 0 = s2 := rfl
  have h5 : B.getD 5 0 = s1 := rfl
  have h6 : B.getD 6 0 = s0 := rfl
  have h7 : B.getD 7 0 = p := rfl
  have h8 : B.getD 8 0 = r0 := rfl
  have h9 : B.getD 9 0 = r1 := rfl
  have h10 : B.getD 10 0 = r2 := rfl
  have h11 : B.getD 11 0 = r3 := rfl
  have h12 : B.getD 12 0 = 0 := rfl
  simp only [payload_header, payload_header_jpeg, hlen, h0, h1, h2, h3, h4,
    h5, h6, h7, h8, h9, h10, h11, h12]
  rw [if_neg (by omega), if_neg (by norm_num [be32]), if_neg (by omega)]
  norm_num [be32, Except.map]

/-- Characterization of one parser pass on a stream whose common header
parses to a JPEG-type header and whose payload header parses
successfully: the parser emits one JPEG of `jpeg_data_size` bytes and
skips the padding. -/
lemma grab_step_jpeg_eq (s : List Nat) (ch : CommonHdr) (ph : PayloadHdr)
    (h1 : common_header (s.take 8) = .ok ch)
    (h3 : ch.payload_type = 1)
    (h2 : payload_header ((s.drop 8).take 128) ch.payload_type = .ok ph)
    (h4 : (((s.drop 8).drop 128).take ph.jpeg_data_size).length =
          ph.jpeg_data_size) :
    grab_liveview_step s =
      .ok ⟨[((s.drop 8).drop 128).take ph.jpeg_data_size], [],
           ((((s.drop 8).drop 128).drop ph.jpeg_data_size).drop
             ph.padding_size)⟩ := by
  rw [h3] at h2
  simp only [grab_liveview_step, h1, h3, h2, JPEG_DATA, reduceIte]
  rw [if_neg (show ¬ _ from fun hh => hh h4)]

/-- C1: a stream that starts with a valid 8-byte common header (start
byte `0xFF`, payload type JPEG), a valid 128-byte payload header (start
code `607479929`, `jpeg_data_size` equal to the body length `L ≤ 100000`,
padding size equal to the padding length, zero flag), an `L`-byte JPEG
body and `P` padding bytes, makes one pass of the liveview parser emit
exactly one JPEG callback carrying exactly the `L` body bytes, no
frame-info callback, and consume exactly `8 + 128 + L + P` bytes of the
stream (the remainder `rest` is returned untouched). -/
theorem liveview_parse_one_jpeg
    (c2 c3 c4 c5 c6 c7 s2 s1 s0 r0 r1 r2 r3 : Nat)
    (tail body padding rest : List Nat)
    (htail : tail.length = 115)
    (hsize : s0 * 2 ^ 0 + s1 * 2 ^ 8 + s2 * 2 ^ 16 = body.length)
    (hL : body.length ≤ 100000) :
    grab_liveview_step
      ([255, 1, c2, c3, c4, c5, c6, c7] ++
       (([36, 53, 104, 121, s2, s1, s0, padding.length,
          r0, r1, r2, r3, 0] ++ tail) ++
        (body ++ (padding ++ rest)))) =
      .ok ⟨[body], [], rest⟩ ∧
    ([255, 1, c2, c3, c4, c5, c6, c7] ++
       (([36, 53, 104, 121, s2, s1, s0, padding.length,
          r0, r1, r2, r3, 0] ++ tail) ++
        (body ++ (padding ++ rest)))).length =
      8 + 128 + body.length + padding.length + rest.length := by
  have hA : (([255, 1, c2, c3, c4, c5, c6, c7] : List Nat)).length = 8 := rfl
  have hB :
      (([36, 53, 104, 121, s2, s1, s0, padding.length,
         r0, r1, r2, r3, 0] ++ tail) : List Nat).length = 128 := by
    simp [htail]
  set A : List Nat := [255, 1, c2, c3, c4, c5, c6, c7] with hAdef
  set B : List Nat := [36, 53, 104, 121, s2, s1, s0, padding.length,
    r0, r1, r2, r3, 0] ++ tail with hBdef
  set S : List Nat := A ++ (B ++ (body ++ (padding ++ rest))) with hSdef
  have hd8 : S.drop 8 = B ++ (body ++ (padding ++ rest)) := by
    rw [hSdef, List.drop_left' hA]
  have hd128 : (S.drop 8).drop 128 = body ++ (padding ++ rest) := by
    rw [hd8, List.drop_left' hB]
  have h1 : common_header (S.take 8) =
      .ok ⟨255, 1, be16 c2 c3, be32 c4 c5 c6 c7⟩ := by
    rw [hSdef, List.take_left' hA]
    exact rfl
  have h2 : payload_header ((S.drop 8).take 128) 1 =
      .ok ⟨607479929, s0 * 2 ^ 0 + s1 * 2 ^ 8 + s2 * 2 ^ 16, padding.length,
           .jpeg (be32 r0 r1 r2 r3) 0⟩ := by
    rw [hd8, List.take_left' hB]
    exact payload_header_jpeg_eval s2 s1 s0 padding.length
      r0 r1 r2 r3 tail htail (by omega)
  have htake : ((S.drop 8).drop 128).take
      (s0 * 2 ^ 0 + s1 * 2 ^ 8 + s2 * 2 ^ 16) = body := by
    rw [hd128, List.take_left' hsize.symm]
  have hdrop : ((S.drop 8).drop 128).drop
      (s0 * 2 ^ 0 + s1 * 2 ^ 8 + s2 * 2 ^ 16) = padding ++ rest := by
    rw [hd128, List.drop_left' hsize.symm]
  constructor
  · have h5 : grab_liveview_step S =
        .ok ⟨[((S.drop 8).drop 128).take
                (s0 * 2 ^ 0 + s1 * 2 ^ 8 + s2 * 2 ^ 16)], [],
             (((S.drop 8).drop 128).drop
                (s0 * 2 ^ 0 + s1 * 2 ^ 8 + s2 * 2 ^ 16)).drop
               padding.length⟩ :=
      grab_step_jpeg_eq S ⟨255, 1, be16 c2 c3, be32 c4 c5 c6 c7⟩
        ⟨607479929, s0 * 2 ^ 0 + s1 * 2 ^ 8 + s2 * 2 ^ 16, padding.length,
         .jpeg (be32 r0 r1 r2 r3) 0⟩ h1 rfl h2
        (by
          show (((S.drop 8).drop 128).take
              (s0 * 2 ^ 0 + s1 * 2 ^ 8 + s2 * 2 ^ 16)).length =
            s0 * 2 ^ 0 + s1 * 2 ^ 8 + s2 * 2 ^ 16
          rw [htake, hsize])
    rw [htake, hdrop] at h5
    rw [h5, List.drop_left' rfl]
  · rw [hSdef, hAdef, hBdef]
    simp [htail]
    omega

/-- Witness for `liveview_parse_one_jpeg`, at the concrete stream of the
spec's scenario 6: a 10-byte JPEG body and no padding. -/
theorem liveview_parse_one_jpeg_witness :
    grab_liveview_step
      ([255, 1, 0, 42, 0, 0, 0, 100] ++
       (([36, 53, 104, 121, 0, 0, 10, ([] : List Nat).length,
          0, 0, 0, 0, 0] ++ List.replicate 115 0) ++
        ([1, 2, 3, 4, 5, 6, 7, 8, 9, 10] ++ (([] : List Nat) ++ [])))) =
      .ok ⟨[[1, 2, 3, 4, 5, 6, 7, 8, 9, 10]], [], []⟩ :=
  (liveview_parse_one_jpeg 0 42 0 0 0 100 0 0 10 0 0 0 0
    (List.replicate 115 0) [1, 2, 3, 4, 5, 6, 7, 8, 9, 10] [] []
    (by simp) (by norm_num) (by norm_num)).1

end LiveviewParse

section Backoff

/-- `runCnt` over an appended trace: the sleeps concatenate and the
counter threads through. -/
lemma runCnt_append (xs ys : List LvEvent) (c : Nat) :
    runCnt c (xs ++ ys) =
      ((runCnt (runCnt c xs).1 ys).1,
       (runCnt c xs).2 ++ (runCnt (runCnt c xs).1 ys).2) := by
  induction xs generalizing c with
  | nil => simp [runCnt]
  | cons e tr ih =>
    cases e with
    | success => simpa [runCnt] using ih 0
    | failure => simp [runCnt, backoffStep, ih (c + 1)]

/-- `runCnt` on `n` consecutive failures starting at counter `c`. -/
lemma runCnt_failures (n : Nat) (c : Nat) :
    runCnt c (List.replicate n .failure) =
      (c + n,
       (List.range n).map (fun k => (BACKOFF (c + k + 1)).getD MAX_BACKOFF)) := by
  induction n generalizing c with
  | zero => simp [runCnt]
  | succ n ih =>
    rw [List.replicate_succ]
    simp only [runCnt, backoffStep, ih (c + 1), List.range_succ_eq_map,
      List.map_cons, List.map_map]
    refine Prod.ext (by simp; omega) ?_
    simp only [Function.comp]
    congr 1
    refine List.map_congr_left fun a _ => ?_
    simp only [Function.comp_apply, Nat.succ_eq_add_one]
    have h1 : c + 1 + a + 1 = c + (a + 1) + 1 := by omega
    rw [h1]

/-- The sleep the `_backoff` table yields at consecutive-failure count
`n ≥ 1` is `min (2 ^ n) 16`. -/
lemma backoff_getD_min (n : Nat) (h : 1 ≤ n) :
    (BACKOFF n).getD MAX_BACKOFF = min (2 ^ n) 16 := by
  match n, h with
  | 1, _ => decide
  | 2, _ => decide
  | 3, _ => decide
  | 4, _ => decide
  | (k + 5), _ =>
    have h1 : BACKOFF (k + 5) = none := rfl
    have h2 : 16 ≤ 2 ^ (k + 5) := by
      calc (16 : Nat) ≤ 2 ^ 5 := by norm_num
      _ ≤ 2 ^ (k + 5) := Nat.pow_le_pow_right (by norm_num) (by omega)
    rw [h1, Nat.min_eq_right h2]
    rfl

/-- C4 (amended): the consecutive-failure counter is `0` after any
successfully parsed frame (and at thread start), and the `n`-th
consecutive transient failure since the last success sleeps
`min (2 ^ n) 16` seconds — i.e. the observed sequence is
`2, 4, 8, 16, 16, 16, …`, not `1, 2, 4, 8, 16, …` (the `BACKOFF[0] = 1`
entry is dead because `_backoff` increments the counter before the
lookup). -/
theorem backoff_sequence (pre : List LvEvent) (n : Nat) :
    (runCnt 0 (pre ++ [.success])).1 = 0 ∧
    (runCnt 0 (List.replicate n .failure)).2 =
      (List.range n).map (fun k => min (2 ^ (k + 1)) 16) ∧
    (runCnt 0 (pre ++ (.success :: List.replicate n .failure))).2 =
      (runCnt 0 (pre ++ [.success])).2 ++
        (List.range n).map (fun k => min (2 ^ (k + 1)) 16) := by
  have hreset : (runCnt 0 (pre ++ [.success])).1 = 0 := by
    rw [runCnt_append]
    rfl
  have hfail : (runCnt 0 (List.replicate n .failure)).2 =
      (List.range n).map (fun k => min (2 ^ (k + 1)) 16) := by
    rw [runCnt_failures]
    exact List.map_congr_left fun k _ => by
      have h1 : 0 + k + 1 = k + 1 := by omega
      rw [h1, backoff_getD_min (k + 1) (by omega)]
  refine ⟨hreset, hfail, ?_⟩
  have hsplit : pre ++ (.success :: List.replicate n .failure) =
      (pre ++ [.success]) ++ List.replicate n (LvEvent.failure) := by
    simp
  rw [hsplit, runCnt_append, hreset, hfail]

/-- C4 counterexample to the claim as stated: the first consecutive
transient failure sleeps `2` seconds, not `1` (the first element of the
spec's sequence `1, 2, 4, 8, 16, …`). -/
theorem backoff_first_sleep_is_two :
    (runCnt 0 [LvEvent.failure]).2 = [2] ∧
      (runCnt 0 [LvEvent.failure]).2 ≠ [1] := by
  decide

end Backoff

section NextId

/-- The value of the endpoint counter (and hence of the `(i+1)`-st
returned id) after `i` calls, in closed form. -/
lemma idState_closed (k : Nat) (h1 : 1 ≤ k) (h2 : k ≤ ID_MAX) (i : Nat) :
    idState k i = (k - 1 + i) % ID_MAX + 1 := by
  have hM : ID_MAX = 2147483647 := rfl
  induction i with
  | zero =>
    simp only [idState]
    rw [hM] at h2 ⊢
    omega
  | succ i ih =>
    simp only [idState, next_id, ih]
    rw [hM]
    omega

/-- C5: starting from a counter value `k ∈ [1, 2^31-1]`, the `(i+1)`-st
call of `next_id` returns `(k - 1 + i) % (2^31 - 1) + 1`, i.e. the values
`k, k+1, …` reduced into `[1, 2^31-1]`; no returned id is `0` or exceeds
`2^31 - 1`; each call returns the current counter. -/
theorem next_id_sequence (k : Nat) (h1 : 1 ≤ k) (h2 : k ≤ ID_MAX) (i : Nat) :
    (next_id (idState k i)).1 = (k - 1 + i) % ID_MAX + 1 ∧
    1 ≤ (next_id (idState k i)).1 ∧
    (next_id (idState k i)).1 ≤ ID_MAX := by
  have hM : ID_MAX = 2147483647 := rfl
  have h := idState_closed k h1 h2 i
  refine ⟨h, ?_, ?_⟩
  · rw [next_id, h]
    omega
  · rw [next_id, h, hM]
    have := Nat.mod_lt (k - 1 + i) (y := 2147483647) (by norm_num)
    simp only [hM] at this ⊢
    omega

/-- Witness for `next_id_sequence`: the spec's ID-wrap scenario — with
the counter at `0x7FFFFFFE` the three successive calls return
`0x7FFFFFFE`, `0x7FFFFFFF`, `1`. -/
theorem next_id_sequence_witness :
    (next_id (idState 0x7FFFFFFE 0)).1 = 0x7FFFFFFE ∧
    (next_id (idState 0x7FFFFFFE 1)).1 = 0x7FFFFFFF ∧
    (next_id (idState 0x7FFFFFFE 2)).1 = 1 :=
  ⟨((next_id_sequence 0x7FFFFFFE (by decide) (by decide) 0).1).trans
     (by decide),
   ((next_id_sequence 0x7FFFFFFE (by decide) (by decide) 1).1).trans
     (by decide),
   ((next_id_sequence 0x7FFFFFFE (by decide) (by decide) 2).1).trans
     (by decide)⟩

end NextId

section Streamer

/-- C2: fan-out completeness.  For every trace of
activate/add_frame/get_frame/deactivate events on a fresh streamer:
(1) for every slot, the frames its client has dequeued followed by the
frames still queued are exactly the frames added while the slot was
active since its last activation — so every such frame is enqueued,
dequeued at most once, in producer order, and only deactivation drops
the queued remainder; (2) an inactive slot's queue is always empty; and
(3)/(4) `add_frame` leaves every inactive slot's queue unchanged and
appends the frame to every active slot's queue. -/
theorem mjpeg_fanout (F : Type) (n fps : Nat) (events : List (MEvent F)) :
    (∀ i, i < n →
      (mjpegRun F n fps events).delivered.getD i [] ++
        (mjpegRun F n fps events).real.queues.getD i [] =
      (mjpegRun F n fps events).added.getD i []) ∧
    (∀ i, i < n →
      (mjpegRun F n fps events).real.enabled.getD i false = false →
      (mjpegRun F n fps events).real.queues.getD i [] = []) ∧
    (∀ (f : F) (i : Nat), i < n →
      (mjpegRun F n fps events).real.enabled.getD i false = false →
      (add_frame (mjpegRun F n fps events).real f).queues.getD i [] =
        (mjpegRun F n fps events).real.queues.getD i []) ∧
    (∀ (f : F) (i : Nat), i < n →
      (mjpegRun F n fps events).real.enabled.getD i false = true →
      (add_frame (mjpegRun F n fps events).real f).queues.getD i [] =
        (mjpegRun F n fps events).real.queues.getD i [] ++ [f]) := by
  have hI := inv_mjpegRun F n fps events
  refine ⟨hI.hfan, hI.hinact, ?_, ?_⟩
  · intro f i hi hcond
    simp only [add_frame]
    rw [getD_zipWith' _ _ i (hi.trans_eq hI.hen.symm) (hi.trans_eq hI.hq.symm)
      false [] [], hcond]
    simp
  · intro f i hi hcond
    simp only [add_frame]
    rw [getD_zipWith' _ _ i (hi.trans_eq hI.hen.symm) (hi.trans_eq hI.hq.symm)
      false [] [], hcond]
    simp

/-- Witness for `mjpeg_fanout`: the spec's fan-out scenario reduced to
one slot — after activating thread 0 and adding frames 1, 2, 3, slot 0
has dequeued nothing and holds exactly `[1, 2, 3]`. -/
theorem mjpeg_fanout_witness :
    (mjpegRun Nat 2 30 [.act 0, .add 1, .add 2, .add 3]).delivered.getD 0 [] ++
      (mjpegRun Nat 2 30 [.act 0, .add 1, .add 2, .add 3]).real.queues.getD 0 [] =
    (mjpegRun Nat 2 30 [.act 0, .add 1, .add 2, .add 3]).added.getD 0 [] :=
  (mjpeg_fanout Nat 2 30 [.act 0, .add 1, .add 2, .add 3]).1 0 (by decide)

/-- C9: `activate` returns `false` exactly when every slot is active;
otherwise it returns `true`, enables the slot at the lowest inactive
index (`_next_idx`), binds the calling thread to that index, and bumps
the active count. -/
theorem activate_lowest_free (F : Type) (s : MState F) (tid : Nat) :
    ((activate s tid).2 = false ↔ ∀ b ∈ s.enabled, b = true) ∧
    ((activate s tid).2 = false → (activate s tid).1 = s) ∧
    ((activate s tid).2 = true →
      s.enabled.getD (next_idx s).toNat false = false ∧
      (∀ j, j < (next_idx s).toNat → s.enabled.getD j false = true) ∧
      (activate s tid).1.enabled =
        s.enabled.set (next_idx s).toNat true ∧
      lookupTid (activate s tid).1.thread_map tid = some (next_idx s) ∧
      (activate s tid).1.act_threads = s.act_threads + 1) := by
  rcases next_idx_aux_cases s.enabled 0 with hneg | ⟨i, h1, h2, h3, h4⟩
  · have hact : activate s tid = (s, false) := by
      simp only [activate, next_idx]
      rw [hneg]
      simp
    rw [hact]
    refine ⟨?_, fun _ => rfl, fun h => absurd h (by simp)⟩
    simpa using (next_idx_aux_eq_neg_iff s.enabled 0).1 hneg
  · have hnn : ¬ (next_idx s < 0) := by
      simp only [next_idx]
      rw [h1]
      omega
    have htn : (next_idx s).toNat = i := by
      simp only [next_idx]
      rw [h1]
      simp
    have hact : activate s tid =
        ({ s with
            thread_map := insertTid s.thread_map tid (next_idx s),
            act_threads := s.act_threads + 1,
            enabled := s.enabled.set (next_idx s).toNat true }, true) := by
      simp only [activate]
      rw [if_neg hnn]
    rw [hact]
    refine ⟨?_, by simp, fun _ => ?_⟩
    · constructor
      · intro h
        exact absurd h (by simp)
      · intro hall
        exact absurd ((next_idx_aux_eq_neg_iff s.enabled 0).2 hall)
          (by rw [h1]; omega)
    · rw [htn]
      exact ⟨h3, fun j hj => h4 j hj, rfl,
        lookupTid_insertTid_self s.thread_map tid (next_idx s), rfl⟩

/-- Witness for `activate_lowest_free`: on a streamer whose slot 0 is
active and slot 1 free, activating thread 7 succeeds, enables slot 1
(the lowest free index), and binds thread 7 to it. -/
theorem activate_lowest_free_witness :
    (activate (⟨30, 1, 2, [(3, 0)], [[], []], [true, false]⟩ : MState Nat)
        7).1.enabled = [true, true] ∧
    lookupTid (activate
        (⟨30, 1, 2, [(3, 0)], [[], []], [true, false]⟩ : MState Nat)
        7).1.thread_map 7 = some 1 := by
  have h := (activate_lowest_free Nat
    ⟨30, 1, 2, [(3, 0)], [[], []], [true, false]⟩ 7).2.2 (by decide)
  exact ⟨h.2.2.1.trans (by decide), h.2.2.2.1.trans (by decide)⟩

/-- C10: in every state reachable from a fresh streamer, every slot
index recorded in `thread_map` is non-negative (so the `idx < 0` guard
branches of `get_frame` and `deactivate` are unreachable for bound
threads), and a thread that never successfully activated — one with no
`thread_map` entry — gets a `KeyError` from both `get_frame` and
`deactivate` rather than empty bytes or a silent return. -/
theorem unregistered_thread_key_error (F : Type) (n fps : Nat)
    (events : List (MEvent F)) (tid : Nat) :
    (∀ tid2 idx, lookupTid (mjpegRun F n fps events).real.thread_map tid2 =
        some idx → 0 ≤ idx) ∧
    (lookupTid (mjpegRun F n fps events).real.thread_map tid = none →
      get_frame (mjpegRun F n fps events).real tid =
        .error (.keyError "tid") ∧
      deactivate (mjpegRun F n fps events).real tid =
        .error (.keyError "tid")) := by
  have hI := inv_mjpegRun F n fps events
  constructor
  · intro tid2 idx hlk
    exact (hI.hmap _ (lookupTid_some_mem hlk)).1
  · intro hnone
    constructor
    · simp only [get_frame, hnone]
    · simp only [deactivate, hnone]

/-- Witness for `unregistered_thread_key_error`: on a fresh streamer no
thread is bound, so thread 0's `get_frame` and `deactivate` raise
`KeyError`. -/
theorem unregistered_thread_key_error_witness :
    get_frame (mjpegRun Nat 2 30 []).real 0 = .error (.keyError "tid") ∧
    deactivate (mjpegRun Nat 2 30 []).real 0 = .error (.keyError "tid") :=
  (unregistered_thread_key_error Nat 2 30 [] 0).2 rfl

end Streamer

section Ssdp

/-- A well-formed SSDP reply datagram carrying a Sony imaging device. -/
def goodReply : List Nat :=
  strBytes "HTTP/1.1 200 OK\r\nSERVER: SonyImagingDevice\r\nLOCATION: http://10.0.0.2/dd.xml\r\n\r\n"

/-- A reply datagram whose header line contains no `': '` separator. -/
def badReply : List Nat :=
  strBytes "HTTP/1.1 200 OK\r\nmalformed header line without separator\r\n"

/-- C3 (code bug): a single malformed reply makes the whole `query`
raise `ValueError` — the tuple unpacking `key, val = line.split(b': ', 1)`
fails and `query` catches only `socket.timeout`, `OSError` and `KeyError`
(the `raise KeyError` in `parse_ssdp_response` is dead code, its guard
`not lines and lines[0] == …` being always false).  The exception also
discards the record already collected from the good socket, instead of
that socket contributing zero records while the others' records are
returned.  On a well-formed reply alone, `query` returns the one
lower-cased record. -/
theorem ssdp_malformed_reply_escapes :
    query [SockRecv.recv goodReply, SockRecv.recv badReply] =
      .error (.valueError "not enough values to unpack") ∧
    query [SockRecv.recv badReply] =
      .error (.valueError "not enough values to unpack") ∧
    query [SockRecv.recv goodReply] =
      .ok [[(strBytes "server", strBytes "SonyImagingDevice"),
            (strBytes "location", strBytes "http://10.0.0.2/dd.xml")]] :=
  ⟨rfl, rfl, rfl⟩

end Ssdp

section ChangeDevice

/-- Any device found by the `_change_device` search loop has exactly the
requested name. -/
lemma findDevice_name {devices : List SrvDevice} {dev : String}
    {d : SrvDevice} (h : findDevice devices dev = some d) :
    d.device_name = dev := by
  suffices hgen : ∀ (l : List SrvDevice) (acc : Option SrvDevice),
      (∀ a, acc = some a → a.device_name = dev) →
      ∀ d', l.foldl (fun acc d => if dev ≠ d.device_name then acc else some d)
        acc = some d' → d'.device_name = dev by
    exact hgen devices none (by intro a ha; cases ha) d h
  intro l
  induction l with
  | nil =>
    intro acc hacc d' h'
    exact hacc d' h'
  | cons x xs ih =>
    intro acc hacc d' h'
    simp only [List.foldl_cons] at h'
    by_cases hx : dev ≠ x.device_name
    · rw [if_pos hx] at h'
      exact ih acc hacc d' h'
    · rw [if_neg hx] at h'
      refine ih (some x) ?_ d' h'
      intro a ha
      cases ha
      exact (not_not.1 hx).symm

/-- C7: `changeDevice` with the name of the currently active device is a
no-op — the server state (active device, liveview handle, status) is
returned unchanged and no liveview stop/start (nor any other effect) is
performed. -/
theorem change_device_same_name_noop (s : ServerState) (a : SrvDevice)
    (evResult : Option Nat) (lvResult : Option String)
    (hact : s.active_device = some a) :
    change_device s a.device_name evResult lvResult = (s, []) := by
  cases hf : findDevice s.devices a.device_name with
  | none => simp only [change_device, hf, hact]
  | some nd =>
    have hname : nd.device_name = a.device_name := findDevice_name hf
    simp only [change_device, hf, hact]
    rw [if_neg (by simp [hname])]

/-- Witness for `change_device_same_name_noop`: a server whose active
device is named `Cam` changing to `Cam`. -/
theorem change_device_same_name_noop_witness :
    change_device
      ⟨[⟨0, "Cam"⟩, ⟨1, "Other"⟩], some ⟨0, "Cam"⟩, some "http://cam/lv",
       some 4⟩
      "Cam" (some 9) (some "http://cam/lv2") =
      (⟨[⟨0, "Cam"⟩, ⟨1, "Other"⟩], some ⟨0, "Cam"⟩, some "http://cam/lv",
        some 4⟩, []) :=
  change_device_same_name_noop
    ⟨[⟨0, "Cam"⟩, ⟨1, "Other"⟩], some ⟨0, "Cam"⟩, some "http://cam/lv",
     some 4⟩
    ⟨0, "Cam"⟩ (some 9) (some "http://cam/lv2") rfl

end ChangeDevice

section ForwardFile

/-- The walk loop emits nothing when no entry matches the basename. -/
lemma forward_go_no_match {b : String} {fetch : String → Option (List Nat)}
    {walk : List MediaFile} (h : ∀ f ∈ walk, f.uri ≠ b) :
    forward_device_file_go b fetch walk = [] := by
  induction walk with
  | nil => rfl
  | cons f fs ih =>
    simp only [forward_device_file_go]
    rw [if_neg (h f (List.mem_cons_self _ _))]
    exact ih fun f' hf' => h f' (List.mem_cons_of_mem _ hf')

/-- C8 (amended): the handler replies 503 when no device is active, and
503 when a matching entry's URL fetch fails; but when the last path
segment matches no `uri` from the media walk it falls off the loop and
sends no response at all — not a 503. -/
theorem forward_device_file_not_found (walk : List MediaFile) (path : String)
    (fetch : String → Option (List Nat)) :
    (forward_device_file false walk path fetch = [.response 503]) ∧
    ((∀ f ∈ walk, f.uri ≠ osBasename path) →
      forward_device_file true walk path fetch = []) ∧
    (∀ (f : MediaFile) (rest : List MediaFile), f.uri = osBasename path →
      fetch f.url = none →
      forward_device_file true (f :: rest) path fetch = [.response 503]) := by
  refine ⟨rfl, ?_, ?_⟩
  · intro h
    simp only [forward_device_file, Bool.not_true]
    rw [if_neg (by simp)]
    exact forward_go_no_match h
  · intro f rest hf hfetch
    simp only [forward_device_file, Bool.not_true, forward_device_file_go]
    rw [if_neg (by simp), if_pos hf, hfetch]

/-- C8 counterexample to the claim as stated: with an active device and
a walk whose only entry has uri `X.JPG`, a GET for
`/image:content/Y.JPG` produces no HTTP events at all — in particular
not a 503 reply. -/
theorem forward_device_file_not_found_counterexample :
    isContentPath "/image:content/Y.JPG" = true ∧
    osBasename "/image:content/Y.JPG" = "Y.JPG" ∧
    forward_device_file true [⟨"X.JPG", "http://cam/x", "still", "jpeg"⟩]
      "/image:content/Y.JPG" (fun _ => some [255, 216]) = [] ∧
    forward_device_file true [⟨"X.JPG", "http://cam/x", "still", "jpeg"⟩]
      "/image:content/Y.JPG" (fun _ => some [255, 216]) ≠
      [.response 503] := by
  refine ⟨rfl, rfl, rfl, ?_⟩
  intro h
  exact absurd h (by decide)

/-- Witness for `forward_device_file_not_found`, at the counterexample's
inputs (no-match case) and at a failing fetch. -/
theorem forward_device_file_not_found_witness :
    forward_device_file true [⟨"X.JPG", "http://cam/x", "still", "jpeg"⟩]
      "/image:content/Y.JPG" (fun _ => some [255, 216]) = [] ∧
    forward_device_file true [⟨"Y.JPG", "http://cam/y", "still", "jpeg"⟩]
      "/image:content/Y.JPG" (fun _ => none) = [.response 503] :=
  ⟨(forward_device_file_not_found
      [⟨"X.JPG", "http://cam/x", "still", "jpeg"⟩] "/image:content/Y.JPG"
      (fun _ => some [255, 216])).2.1 (by decide),
   (forward_device_file_not_found
      [⟨"Y.JPG", "http://cam/y", "still", "jpeg"⟩] "/image:content/Y.JPG"
      (fun _ => none)).2.2 ⟨"Y.JPG", "http://cam/y", "still", "jpeg"⟩ []
      (by decide) rfl⟩

end ForwardFile

section DeviceCache

lemma dictGet_append_left {K V : Type} [DecidableEq K]
    {m : List (K × V)} {k : K} {v : V} (m' : List (K × V))
    (h : dictGet m k = some v) : dictGet (m ++ m') k = some v := by
  induction m with
  | nil => simp [dictGet] at h
  | cons p rest ih =>
    obtain ⟨k', v'⟩ := p
    simp only [dictGet, List.cons_append] at h ⊢
    by_cases hk : k' = k
    · rwa [if_pos hk] at h ⊢
    · rw [if_neg hk] at h ⊢
      exact ih h

lemma dictGet_append_self {K V : Type} [DecidableEq K]
    {m : List (K × V)} {k : K} (v : V)
    (h : dictGet m k = none) : dictGet (m ++ [(k, v)]) k = some v := by
  induction m with
  | nil => simp [dictGet]
  | cons p rest ih =>
    obtain ⟨k', v'⟩ := p
    simp only [dictGet, List.cons_append] at h ⊢
    by_cases hk : k' = k
    · rw [if_pos hk] at h
      cases h
    · rw [if_neg hk] at h ⊢
      exact ih h

/-- `add` never disturbs an existing cache entry. -/
lemma cacheAdd_mono {st : CacheState} {k : List (String × String)} {v : Nat}
    (r : List (String × String)) (h : dictGet st.cache k = some v) :
    dictGet (cacheAdd st r).1.cache k = some v := by
  simp only [cacheAdd]
  cases hg : dictGet st.cache (sortRecord r) with
  | some d => exact h
  | none => exact dictGet_append_left _ h

/-- After `add`, the record's key maps to the returned proxy. -/
lemma cacheAdd_self (st : CacheState) (r : List (String × String)) :
    dictGet (cacheAdd st r).1.cache (sortRecord r) = some (cacheAdd st r).2.1 := by
  simp only [cacheAdd]
  cases hg : dictGet st.cache (sortRecord r) with
  | some d => exact hg
  | none => exact dictGet_append_self _ hg

lemma scanGo_mono (rs : List (List (String × String))) :
    ∀ (st : CacheState) (dev : List (String × Nat)) (f : Nat)
      (k : List (String × String)) (v : Nat),
      dictGet st.cache k = some v →
      dictGet (scanGo rs st dev f).1.cache k = some v := by
  induction rs with
  | nil => intro st dev f k v h; exact h
  | cons r rs ih =>
    intro st dev f k v h
    simp only [scanGo]
    by_cases hg : containsSub "SonyImagingDevice".toList
        (((getHdr r "server").getD "").toList)
    · rw [if_pos hg]
      cases hl : getHdr r "location" with
      | none => exact ih st dev f k v h
      | some loc => exact ih _ _ _ k v (cacheAdd_mono r h)
    · rw [if_neg hg]
      exact ih st dev f k v h

lemma scanGo_postkey (rs : List (List (String × String))) :
    ∀ (st : CacheState) (dev : List (String × Nat)) (f : Nat)
      (r : List (String × String)), r ∈ rs →
      containsSub "SonyImagingDevice".toList
        (((getHdr r "server").getD "").toList) = true →
      (getHdr r "location").isSome →
      (dictGet (scanGo rs st dev f).1.cache (sortRecord r)).isSome := by
  induction rs with
  | nil => intro st dev f r hr; cases hr
  | cons r0 rs ih =>
    intro st dev f r hr hsrv hloc
    rcases List.mem_cons.1 hr with hr0 | hrtl
    · subst hr0
      simp only [scanGo]
      rw [if_pos hsrv]
      cases hl : getHdr r "location" with
      | none => rw [hl] at hloc; cases hloc
      | some loc =>
        have h2 := scanGo_mono rs (cacheAdd st r).1
          (dictSet dev loc (cacheAdd st r).2.1)
          (f + if (cacheAdd st r).2.2 then 1 else 0)
          (sortRecord r) (cacheAdd st r).2.1 (cacheAdd_self st r)
        rw [h2]
        rfl
    · simp only [scanGo]
      by_cases hg : containsSub "SonyImagingDevice".toList
          (((getHdr r0 "server").getD "").toList)
      · rw [if_pos hg]
        cases hl : getHdr r0 "location" with
        | none => exact ih st dev f r hrtl hsrv hloc
        | some loc => exact ih _ _ _ r hrtl hsrv hloc
      · rw [if_neg hg]
        exact ih st dev f r hrtl hsrv hloc

/-- The device list of a scan, recomputed by pure lookups in a cache. -/
def pureScanGo (c : List (List (String × String) × Nat)) :
    List (List (String × String)) → List (String × Nat) → List (String × Nat)
  | [], devices => devices
  | r :: rs, devices =>
    if containsSub "SonyImagingDevice".toList
        (((getHdr r "server").getD "").toList) then
      match getHdr r "location" with
      | none => pureScanGo c rs devices
      | some loc =>
        pureScanGo c rs
          (dictSet devices loc ((dictGet c (sortRecord r)).getD 0))
    else pureScanGo c rs devices

/-- The devices a scan returns are the final cache's entries for the
scanned records. -/
lemma scanGo_devices_eq (rs : List (List (String × String))) :
    ∀ (st : CacheState) (dev : List (String × Nat)) (f : Nat),
      (scanGo rs st dev f).2.1 =
        pureScanGo (scanGo rs st dev f).1.cache rs dev := by
  induction rs with
  | nil => intro st dev f; rfl
  | cons r rs ih =>
    intro st dev f
    simp only [scanGo, pureScanGo]
    by_cases hg : containsSub "SonyImagingDevice".toList
        (((getHdr r "server").getD "").toList)
    · rw [if_pos hg, if_pos hg]
      cases hl : getHdr r "location" with
      | none => exact ih st dev f
      | some loc =>
        have hd : dictGet (scanGo rs (cacheAdd st r).1
            (dictSet dev loc (cacheAdd st r).2.1)
            (f + if (cacheAdd st r).2.2 then 1 else 0)).1.cache
            (sortRecord r) = some (cacheAdd st r).2.1 :=
          scanGo_mono rs _ _ _ _ _ (cacheAdd_self st r)
        rw [hd]
        exact ih _ _ _
    · rw [if_neg hg, if_neg hg]
      exact ih st dev f

/-- A scan over records whose keys are all already cached changes
nothing, fetches nothing, and returns the cached proxies. -/
lemma scanGo_cached (rs : List (List (String × String))) :
    ∀ (st : CacheState) (dev : List (String × Nat)) (f : Nat),
      (∀ r ∈ rs,
        containsSub "SonyImagingDevice".toList
          (((getHdr r "server").getD "").toList) = true →
        (getHdr r "location").isSome →
        (dictGet st.cache (sortRecord r)).isSome) →
      scanGo rs st dev f = (st, pureScanGo st.cache rs dev, f) := by
  induction rs with
  | nil => intro st dev f _; rfl
  | cons r rs ih =>
    intro st dev f hpre
    simp only [scanGo, pureScanGo]
    by_cases hg : containsSub "SonyImagingDevice".toList
        (((getHdr r "server").getD "").toList)
    · rw [if_pos hg, if_pos hg]
      cases hl : getHdr r "location" with
      | none =>
        exact ih st dev f fun r' hr' => hpre r' (List.mem_cons_of_mem _ hr')
      | some loc =>
        have hsome : (dictGet st.cache (sortRecord r)).isSome :=
          hpre r (List.mem_cons_self _ _) hg (by rw [hl]; rfl)
        cases hd : dictGet st.cache (sortRecord r) with
        | none => rw [hd] at hsome; cases hsome
        | some d =>
          have hadd : cacheAdd st r = (st, d, false) := by
            simp only [cacheAdd, hd]
          rw [hadd]
          exact ih st (dictSet dev loc d) f
            fun r' hr' => hpre r' (List.mem_cons_of_mem _ hr')
    · rw [if_neg hg, if_neg hg]
      exact ih st dev f fun r' hr' => hpre r' (List.mem_cons_of_mem _ hr')

/-- C6: scanning twice against unchanged discovery records returns
proxies with identical identities, performs no device-description fetch
on the second scan, and leaves the cache unchanged; and `add` on a
record whose sorted header tuple is already cached returns the
previously hydrated proxy without constructing (fetching) a new
device. -/
theorem cache_scan_idempotent (st : CacheState)
    (rs : List (List (String × String))) :
    (scan_devices (scan_devices st rs).1 rs).1 = (scan_devices st rs).1 ∧
    (scan_devices (scan_devices st rs).1 rs).2.1 =
      (scan_devices st rs).2.1 ∧
    (scan_devices (scan_devices st rs).1 rs).2.2 = 0 ∧
    (∀ (r : List (String × String)) (d : Nat),
      dictGet st.cache (sortRecord r) = some d →
      cacheAdd st r = (st, d, false)) := by
  have hpre : ∀ r ∈ rs,
      containsSub "SonyImagingDevice".toList
        (((getHdr r "server").getD "").toList) = true →
      (getHdr r "location").isSome →
      (dictGet (scanGo rs st [] 0).1.cache (sortRecord r)).isSome :=
    fun r hr hsrv hloc => scanGo_postkey rs st [] 0 r hr hsrv hloc
  have h9 := scanGo_cached rs (scanGo rs st [] 0).1 [] 0 hpre
  refine ⟨?_, ?_, ?_, ?_⟩
  · simp only [scan_devices, h9]
  · simp only [scan_devices, h9]
    rw [scanGo_devices_eq rs st [] 0]
  · simp only [scan_devices, h9]
  · intro r d h
    simp only [cacheAdd, h]

/-- Witness for `cache_scan_idempotent`: a cache already holding the
record's key returns the cached proxy 7 without a fetch. -/
theorem cache_scan_idempotent_witness :
    cacheAdd
      ⟨[(sortRecord [("location", "http://10.0.0.2/dd.xml"),
                     ("server", "SonyImagingDevice")], 7)], 8⟩
      [("location", "http://10.0.0.2/dd.xml"),
       ("server", "SonyImagingDevice")] =
      (⟨[(sortRecord [("location", "http://10.0.0.2/dd.xml"),
                      ("server", "SonyImagingDevice")], 7)], 8⟩, 7, false) :=
  (cache_scan_idempotent
    ⟨[(sortRecord [("location", "http://10.0.0.2/dd.xml"),
                   ("server", "SonyImagingDevice")], 7)], 8⟩ []).2.2.2
    [("location", "http://10.0.0.2/dd.xml"),
     ("server", "SonyImagingDevice")] 7 rfl

end DeviceCache
